import Mathlib

/-!
Verification development for the Volumetric-Path-Tracer repository
(src/libs/yocto_pathtrace/yocto_pathtrace.cpp).

The C++ code is shallowly embedded: single-precision floats are modelled as
rationals (exact real arithmetic; rounding is immaterial to the structural
properties below, and where IEEE special values matter, in `get_render`, a
dedicated float model with infinities and NaN is used).  Mutable loops become
fuel-based recursion; the per-pixel RNG stream becomes a finite list of
rationals, and a path terminates when the modelled tape is exhausted (the real
stream is infinite; every property below is invariant under that convention).
Library collaborators that live outside this repository's sources (the BVH,
scene evaluators, BSDF/phase/transmittance samplers of the yocto library) are
abstracted as parameters of a `scene_model` record; everything defined below
the record is translated line by line from yocto_pathtrace.cpp.
-/

namespace yocto

/-- 3-component float vector (yocto `vec3f`), modelled over ℚ. -/
structure vec3f where
  x : ℚ
  y : ℚ
  z : ℚ
deriving DecidableEq, Repr

/-- 4-component float vector (yocto `vec4f`), modelled over ℚ. -/
structure vec4f where
  x : ℚ
  y : ℚ
  z : ℚ
  w : ℚ
deriving DecidableEq, Repr

instance : Add vec3f := ⟨fun a b => ⟨a.x + b.x, a.y + b.y, a.z + b.z⟩⟩

instance : Sub vec3f := ⟨fun a b => ⟨a.x - b.x, a.y - b.y, a.z - b.z⟩⟩

/-- Componentwise product, as yocto `operator*(vec3f, vec3f)`. -/
instance : Mul vec3f := ⟨fun a b => ⟨a.x * b.x, a.y * b.y, a.z * b.z⟩⟩

instance : Neg vec3f := ⟨fun a => ⟨-a.x, -a.y, -a.z⟩⟩

/-- Vector–scalar product, as yocto `operator*(vec3f, float)`. -/
instance : HMul vec3f ℚ vec3f := ⟨fun a s => ⟨a.x * s, a.y * s, a.z * s⟩⟩

/-- Vector / scalar, as yocto `operator/(vec3f, float)` (ℚ: division by zero
yields zero where the float code would produce an infinity that the
`isfinite` guard then discards). -/
instance : HDiv vec3f ℚ vec3f := ⟨fun a s => ⟨a.x / s, a.y / s, a.z / s⟩⟩

instance : OfNat vec3f 0 := ⟨⟨0, 0, 0⟩⟩

instance : OfNat vec3f 1 := ⟨⟨1, 1, 1⟩⟩

instance : Add vec4f :=
  ⟨fun a b => ⟨a.x + b.x, a.y + b.y, a.z + b.z, a.w + b.w⟩⟩

instance : OfNat vec4f 0 := ⟨⟨0, 0, 0, 0⟩⟩

/-- yocto `dot(vec3f, vec3f)`. -/
def dot (a b : vec3f) : ℚ := a.x * b.x + a.y * b.y + a.z * b.z

/-- yocto `max(vec3f)`: the largest component. -/
def vec3f.maxc (a : vec3f) : ℚ := max a.x (max a.y a.z)

/-- A ray (yocto `ray3f`).  `tmin`/`tmax` keep yocto's defaults; none of the
properties below depend on them since intersection is abstracted. -/
structure ray3f where
  o : vec3f
  d : vec3f
  tmin : ℚ := 1 / 10000
  tmax : ℚ := 10 ^ 38
deriving DecidableEq, Repr

/-- yocto `ray_point(ray, t) = ray.o + ray.d * t`. -/
def ray_point (r : ray3f) (t : ℚ) : vec3f := r.o + r.d * t

/-- Material type tags used by the shaders (yocto `material_type`). -/
inductive material_type where
  | matte
  | glossy
  | reflective
  | transparent
  | refractive
  | subsurface
  | volumetric
  | gltfpbr
deriving DecidableEq, Repr

/-- A shading-point material (yocto `material_point`): the fields read by the
code under verification. -/
structure material_point where
  type : material_type := .matte
  emission : vec3f := 0
  color : vec3f := 0
  opacity : ℚ := 1
  roughness : ℚ := 0
  density : vec3f := 0
  scattering : vec3f := 0
  scanisotropy : ℚ := 0
deriving DecidableEq, Repr

/-- Modelled from the spec: `is_delta(material_point)` of the yocto scene
library (not under src/): delta materials are reflective/transparent/
refractive at `roughness == 0`, and all of `volumetric`. -/
def is_delta (m : material_point) : Bool :=
  (m.type == .reflective && m.roughness == 0) ||
  (m.type == .transparent && m.roughness == 0) ||
  (m.type == .refractive && m.roughness == 0) ||
  (m.type == .volumetric)

/-- The random tape: the per-pixel `rng_state`, modelled as the finite list of
uniform draws it will produce. -/
abbrev rngList := List ℚ

/-- `rand1f`: pop one uniform draw; `none` when the modelled tape is spent. -/
def rand1f : rngList → Option (ℚ × rngList)
  | [] => none
  | r :: rest => some (r, rest)

/-- `rand2f`: two consecutive `rand1f` draws. -/
def rand2f (rng : rngList) : Option ((ℚ × ℚ) × rngList) :=
  match rand1f rng with
  | none => none
  | some (r1, rng1) =>
    match rand1f rng1 with
    | none => none
    | some (r2, rng2) => some ((r1, r2), rng2)

/-- A BVH hit record (yocto `bvh_intersection`), as read by the shaders. -/
structure bvh_intersection where
  inst : ℕ := 0
  element : ℕ := 0
  u : ℚ := 0
  v : ℚ := 0
  distance : ℚ := 0
deriving DecidableEq, Repr

/-- The library collaborators consumed by yocto_pathtrace.cpp (BVH traversal,
scene evaluators, BSDF/light/transmittance/phase sampling).  They live in the
yocto library, outside this repository's src/, so they are abstracted as
deterministic functions; every claim below is independent of their values. -/
structure scene_model where
  intersect_bvh : ray3f → Option bvh_intersection
  eval_environment : vec3f → vec3f
  eval_shading_position : bvh_intersection → vec3f → vec3f
  eval_shading_normal : bvh_intersection → vec3f → vec3f
  eval_material : bvh_intersection → material_point
  is_volumetric : bvh_intersection → Bool
  sample_bsdfcos : material_point → vec3f → vec3f → ℚ → ℚ × ℚ → vec3f
  eval_bsdfcos : material_point → vec3f → vec3f → vec3f → vec3f
  sample_bsdfcos_pdf : material_point → vec3f → vec3f → vec3f → ℚ
  sample_delta : material_point → vec3f → vec3f → ℚ → vec3f
  eval_delta : material_point → vec3f → vec3f → vec3f → vec3f
  sample_delta_pdf : material_point → vec3f → vec3f → vec3f → ℚ
  sample_lights : vec3f → ℚ → ℚ → ℚ × ℚ → vec3f
  sample_lights_pdf : vec3f → vec3f → ℚ
  sample_transmittance : vec3f → ℚ → ℚ → ℚ → ℚ
  eval_transmittance : vec3f → ℚ → vec3f
  sample_transmittance_pdf : vec3f → ℚ → ℚ → ℚ
  eval_phasefunction : ℚ → vec3f → vec3f → ℚ
  sample_phasefunction : ℚ → vec3f → ℚ × ℚ → vec3f
  sample_phasefunction_pdf : ℚ → vec3f → vec3f → ℚ

/-- `eval_emission` (yocto_pathtrace.cpp, line 86): the material emission when
the outgoing direction is on the front side, zero otherwise. -/
def eval_emission (material : material_point) (normal outgoing : vec3f) :
    vec3f :=
  if 0 ≤ dot normal outgoing then material.emission else 0

/-- `eval_scattering` (yocto_pathtrace.cpp, line 238): the volume-event
contribution `material.density * material.scattering *
eval_phasefunction(material.scanisotropy, incoming, outgoing)`.  The phase
function itself is a yocto library collaborator, passed as a parameter. -/
def eval_scattering (phase : ℚ → vec3f → vec3f → ℚ)
    (material : material_point) (outgoing incoming : vec3f) : vec3f :=
  material.density * material.scattering *
    phase material.scanisotropy incoming outgoing

/-- `sample_scattering` (yocto_pathtrace.cpp, line 244); the `rnl` argument
is accepted but unused, exactly as in the source. -/
def sample_scattering (samplephase : ℚ → vec3f → ℚ × ℚ → vec3f)
    (material : material_point) (outgoing : vec3f) (_rnl : ℚ)
    (rn : ℚ × ℚ) : vec3f :=
  samplephase material.scanisotropy outgoing rn

/-- `sample_scattering_pdf` (yocto_pathtrace.cpp, line 250). -/
def sample_scattering_pdf (phasepdf : ℚ → vec3f → vec3f → ℚ)
    (material : material_point) (outgoing incoming : vec3f) : ℚ :=
  phasepdf material.scanisotropy outgoing incoming

/-- Written after the spec's own words (section 4.B / glossary), for
comparison against `eval_scattering`: the contribution
`σ_s · albedo · phase(g, wi, wo)` where `density` is `σ_t` per channel and
`scattering` the single-scattering albedo, hence `σ_s = density * scattering`
and the claimed value carries a second `scattering` factor. -/
def eval_scattering_specwords (phase : ℚ → vec3f → vec3f → ℚ)
    (material : material_point) (outgoing incoming : vec3f) : vec3f :=
  (material.density * material.scattering) * material.scattering *
    phase material.scanisotropy incoming outgoing

/-- The scattering coefficient per the spec's glossary:
`σ_s = σ_t · albedo = density * scattering`. -/
def sigma_s (material : material_point) : vec3f :=
  material.density * material.scattering

/-- The volumetric-stack update of `shade_volpathtrace`
(yocto_pathtrace.cpp, lines 525-532): when the hit instance is volumetric and
the chosen direction crossed the boundary, push the hit material if the stack
is empty and pop otherwise.  `push_back`/`pop_back` act on the list's back. -/
def update_vstack (is_vol : Bool) (normal outgoing incoming : vec3f)
    (material : material_point) (vstack : List material_point) :
    List material_point :=
  if is_vol ∧ dot normal outgoing * dot normal incoming < 0 then
    if vstack.isEmpty then vstack ++ [material] else vstack.dropLast
  else vstack

/-- Written after the spec's own words (section 3 invariants / 4.G), for
comparison against `update_vstack`: push when exiting the current stack's
context, that is when the stack is empty or its top is a different medium;
pop otherwise. -/
def update_vstack_specwords (is_vol : Bool) (normal outgoing incoming : vec3f)
    (material : material_point) (vstack : List material_point) :
    List material_point :=
  if is_vol ∧ dot normal outgoing * dot normal incoming < 0 then
    if vstack.isEmpty ∨ vstack.getLast? ≠ some material then
      vstack ++ [material]
    else vstack.dropLast
  else vstack

/-- The per-light CDF computed by `make_lights` (yocto_pathtrace.cpp, lines
900-917): `cdf[idx] = area_idx` plus, for `idx ≠ 0`, `cdf[idx-1]`.  The
per-element areas (`triangle_area`/`quad_area`, yocto library, not under
src/) enter as the input list; `make_lights` applies no filtering to it. -/
def elements_cdf_from (prev : ℚ) : List ℚ → List ℚ
  | [] => []
  | a :: rest => (prev + a) :: elements_cdf_from (prev + a) rest

/-- `elements_cdf` of a mesh light: the running sum of the per-element areas,
one entry per element of the shape. -/
def elements_cdf (areas : List ℚ) : List ℚ := elements_cdf_from 0 areas

/-- The Russian-roulette step shared verbatim by `shade_pathtrace` (lines
640-645), `shade_volpathtrace` (lines 564-569) and `shade_naive` (lines
707-712): only at `bounce > 3`, survive with probability
`rr_prob = min(0.99, max(weight))`, dividing the surviving weight by
`rr_prob`.  Returns `none` when the path is terminated (the tape position
after the draw is returned in either case). -/
def russian_roulette (bounce : ℕ) (weight : vec3f) (rng : rngList) :
    Option vec3f × rngList :=
  if 3 < bounce then
    match rand1f rng with
    | none => (none, rng)
    | some (r, rng') =>
      let rr_prob := min (99 / 100 : ℚ) weight.maxc
      if rr_prob ≤ r then (none, rng')
      else (some (weight * (1 / rr_prob)), rng')
  else (some weight, rng)

/-- The rendering options read by the embedded code (`pathtrace_params`);
the shader variant is passed explicitly where the source dispatches through
`get_shader`. -/
structure pathtrace_params where
  camera : ℕ := 0
  resolution : ℕ := 720
  samples : ℕ := 512
  bounces : ℕ := 4
  noparallel : Bool := false
deriving DecidableEq, Repr

instance : Inhabited material_point := ⟨{}⟩

/-- Pack accumulated radiance and the hit flag into the returned `vec4f`, as
every `return {radiance.x, radiance.y, radiance.z, hit ? 1.0f : 0.0f}`. -/
def finish_vec (radiance : vec3f) (hitf : Bool) : vec4f :=
  ⟨radiance.x, radiance.y, radiance.z, if hitf then 1 else 0⟩

/-- `isfinite(vec3f)`: rationals model finite float values, so the guard is
always true in this embedding. -/
def isfinite3 (_ : vec3f) : Bool := true

/-- `isfinite(vec4f)` for the driver's radiance clamp; always true here. -/
def isfinite4 (_ : vec4f) : Bool := true

/-- The stochastic opacity cut-out test shared by all shaders
(`material.opacity < 1 && rand1f(rng) >= material.opacity`): the draw is
consumed only when `opacity < 1` (short-circuit); `some (skip, rng)` tells
whether the surface is skipped; `none` when the tape is spent. -/
def opacity_cut (opacity : ℚ) (rng : rngList) : Option (Bool × rngList) :=
  if opacity < 1 then
    match rand1f rng with
    | none => none
    | some (r, rng') => some (opacity ≤ r, rng')
  else some (false, rng)

/-- The "next direction" block of `shade_pathtrace` (lines 614-633) and
`shade_volpathtrace` (lines 504-523): 50/50 MIS between BSDF and light
sampling for non-delta materials, delta sampling otherwise (no zero-direction
check on the delta branch, as in the source).  Returns the chosen direction
and the multiplied weight; `none` means the path broke (zero direction or
spent tape). -/
def sample_direction_mis (S : scene_model) (material : material_point)
    (normal outgoing position : vec3f) (weight : vec3f) (rng : rngList) :
    Option (vec3f × vec3f) × rngList :=
  if is_delta material = false then
    match rand1f rng with
    | none => (none, rng)
    | some (rs, rng1) =>
      let sampled : Option (vec3f × rngList) :=
        if rs < 1 / 2 then
          match rand1f rng1 with
          | none => none
          | some (rnl, rng2) =>
            match rand2f rng2 with
            | none => none
            | some (ruv, rng3) =>
              some (S.sample_bsdfcos material normal outgoing rnl ruv, rng3)
        else
          match rand1f rng1 with
          | none => none
          | some (rl, rng2) =>
            match rand1f rng2 with
            | none => none
            | some (rel, rng3) =>
              match rand2f rng3 with
              | none => none
              | some (ruv, rng4) =>
                some (S.sample_lights position rl rel ruv, rng4)
      match sampled with
      | none => (none, rng1)
      | some (incoming, rng') =>
        if incoming = (0 : vec3f) then (none, rng')
        else
          (some (incoming,
            weight * (S.eval_bsdfcos material normal outgoing incoming /
              (1 / 2 * S.sample_bsdfcos_pdf material normal outgoing incoming +
               1 / 2 * S.sample_lights_pdf position incoming))), rng')
  else
    match rand1f rng with
    | none => (none, rng)
    | some (rnl, rng') =>
      let incoming := S.sample_delta material normal outgoing rnl
      (some (incoming,
        weight * (S.eval_delta material normal outgoing incoming /
          S.sample_delta_pdf material normal outgoing incoming)), rng')

/-- The "next direction" block of `shade_naive` (lines 690-702): BSDF-only
sampling, dispatching on `material.roughness != 0`, with the zero-direction
check on both branches. -/
def sample_direction_naive (S : scene_model) (material : material_point)
    (normal outgoing : vec3f) (weight : vec3f) (rng : rngList) :
    Option (vec3f × vec3f) × rngList :=
  if material.roughness ≠ 0 then
    match rand1f rng with
    | none => (none, rng)
    | some (rnl, rng1) =>
      match rand2f rng1 with
      | none => (none, rng1)
      | some (ruv, rng2) =>
        let incoming := S.sample_bsdfcos material normal outgoing rnl ruv
        if incoming = (0 : vec3f) then (none, rng2)
        else
          (some (incoming,
            weight * (S.eval_bsdfcos material normal outgoing incoming /
              S.sample_bsdfcos_pdf material normal outgoing incoming)), rng2)
  else
    match rand1f rng with
    | none => (none, rng)
    | some (rnl, rng1) =>
      let incoming := S.sample_delta material normal outgoing rnl
      if incoming = (0 : vec3f) then (none, rng1)
      else
        (some (incoming,
          weight * (S.eval_delta material normal outgoing incoming /
            S.sample_delta_pdf material normal outgoing incoming)), rng1)

/-- The bounce loop of `shade_pathtrace` (yocto_pathtrace.cpp, lines
578-649), with fuel-based recursion; the fuel is set from the tape length so
that it never runs out before the tape does (every continuing iteration
consumes at least one draw). -/
def shade_pathtrace_loop (S : scene_model) (bounces : ℕ) :
    ℕ → ℕ → vec3f → vec3f → ray3f → Bool → rngList → vec4f × rngList
  | 0, _, radiance, _, _, hitf, rng => (finish_vec radiance hitf, rng)
  | fuel + 1, bounce, radiance, weight, ray, hitf, rng =>
    if bounces ≤ bounce then (finish_vec radiance hitf, rng)
    else
      match S.intersect_bvh ray with
      | none =>
        (finish_vec (radiance + weight * S.eval_environment ray.d) hitf, rng)
      | some intersection =>
        let outgoing := -ray.d
        let position := S.eval_shading_position intersection outgoing
        let normal := S.eval_shading_normal intersection outgoing
        let material := S.eval_material intersection
        match opacity_cut material.opacity rng with
        | none => (finish_vec radiance hitf, rng)
        | some (skip, rng1) =>
          if skip then
            shade_pathtrace_loop S bounces fuel bounce radiance weight
              { o := position + ray.d * ((1 : ℚ) / 100), d := ray.d } hitf rng1
          else
            let hitf := hitf || bounce == 0
            let radiance :=
              radiance + weight * eval_emission material normal outgoing
            match sample_direction_mis S material normal outgoing position
                weight rng1 with
            | (none, rng2) => (finish_vec radiance hitf, rng2)
            | (some (incoming, weight'), rng2) =>
              let ray' : ray3f := { o := position, d := incoming }
              if weight' = (0 : vec3f) ∨ isfinite3 weight' = false then
                (finish_vec radiance hitf, rng2)
              else
                match russian_roulette bounce weight' rng2 with
                | (none, rng3) => (finish_vec radiance hitf, rng3)
                | (some weight'', rng3) =>
                  shade_pathtrace_loop S bounces fuel (bounce + 1) radiance
                    weight'' ray' hitf rng3

/-- `shade_pathtrace`: run the bounce loop from the primary ray with zero
radiance, unit weight and no hit. -/
def shade_pathtrace (S : scene_model) (params : pathtrace_params)
    (ray : ray3f) (rng : rngList) : vec4f × rngList :=
  shade_pathtrace_loop S params.bounces (rng.length + 1) 0 0 1 ray false rng

/-- The bounce loop of `shade_naive` (yocto_pathtrace.cpp, lines 652-719):
same skeleton as `shade_pathtrace` with BSDF-only sampling (the next ray is
set up after Russian roulette in the source; the observable state passed to
the next iteration is identical). -/
def shade_naive_loop (S : scene_model) (bounces : ℕ) :
    ℕ → ℕ → vec3f → vec3f → ray3f → Bool → rngList → vec4f × rngList
  | 0, _, radiance, _, _, hitf, rng => (finish_vec radiance hitf, rng)
  | fuel + 1, bounce, radiance, weight, ray, hitf, rng =>
    if bounces ≤ bounce then (finish_vec radiance hitf, rng)
    else
      match S.intersect_bvh ray with
      | none =>
        (finish_vec (radiance + weight * S.eval_environment ray.d) hitf, rng)
      | some intersection =>
        let outgoing := -ray.d
        let position := S.eval_shading_position intersection outgoing
        let normal := S.eval_shading_normal intersection outgoing
        let material := S.eval_material intersection
        match opacity_cut material.opacity rng with
        | none => (finish_vec radiance hitf, rng)
        | some (skip, rng1) =>
          if skip then
            shade_naive_loop S bounces fuel bounce radiance weight
              { o := position + ray.d * ((1 : ℚ) / 100), d := ray.d } hitf rng1
          else
            let hitf := hitf || bounce == 0
            let radiance :=
              radiance + weight * eval_emission material normal outgoing
            match sample_direction_naive S material normal outgoing weight
                rng1 with
            | (none, rng2) => (finish_vec radiance hitf, rng2)
            | (some (incoming, weight'), rng2) =>
              if weight' = (0 : vec3f) ∨ isfinite3 weight' = false then
                (finish_vec radiance hitf, rng2)
              else
                match russian_roulette bounce weight' rng2 with
                | (none, rng3) => (finish_vec radiance hitf, rng3)
                | (some weight'', rng3) =>
                  shade_naive_loop S bounces fuel (bounce + 1) radiance
                    weight'' { o := position, d := incoming } hitf rng3

/-- `shade_naive`. -/
def shade_naive (S : scene_model) (params : pathtrace_params)
    (ray : ray3f) (rng : rngList) : vec4f × rngList :=
  shade_naive_loop S params.bounces (rng.length + 1) 0 0 1 ray false rng

/-- The bounce loop of `shade_volpathtrace` (yocto_pathtrace.cpp, lines
444-573): free-flight sampling against the top of the volumetric stack, then
either a volume event (phase/light MIS, no stack change) or a surface event
(as `shade_pathtrace`, plus the `update_vstack` step). -/
def shade_volpathtrace_loop (S : scene_model) (bounces : ℕ) :
    ℕ → ℕ → vec3f → vec3f → ray3f → Bool → List material_point → rngList →
      vec4f × rngList
  | 0, _, radiance, _, _, hitf, _, rng => (finish_vec radiance hitf, rng)
  | fuel + 1, bounce, radiance, weight, ray, hitf, vstack, rng =>
    if bounces ≤ bounce then (finish_vec radiance hitf, rng)
    else
      match S.intersect_bvh ray with
      | none =>
        (finish_vec (radiance + weight * S.eval_environment ray.d) hitf, rng)
      | some intersection0 =>
        -- sample transmittance (lines 466-477)
        match
          (if vstack.isEmpty then
            some (weight, intersection0, false, rng)
          else
            let density := (vstack.getLastD default).density
            match rand1f rng with
            | none => none
            | some (r1, rngA) =>
              match rand1f rngA with
              | none => none
              | some (r2, rngB) =>
                let distance :=
                  S.sample_transmittance density intersection0.distance r1 r2
                let weight := weight *
                  (S.eval_transmittance density distance /
                    S.sample_transmittance_pdf density distance
                      intersection0.distance)
                some (weight, { intersection0 with distance := distance },
                  decide (distance < intersection0.distance), rngB)) with
        | none => (finish_vec radiance hitf, rng)
        | some (weight, intersection, inVolume, rng0) =>
          if inVolume = false then
            -- handle surface (lines 480-536)
            let outgoing := -ray.d
            let position := S.eval_shading_position intersection outgoing
            let normal := S.eval_shading_normal intersection outgoing
            let material := S.eval_material intersection
            match opacity_cut material.opacity rng0 with
            | none => (finish_vec radiance hitf, rng0)
            | some (skip, rng1) =>
              if skip then
                shade_volpathtrace_loop S bounces fuel bounce radiance weight
                  { o := position + ray.d * ((1 : ℚ) / 100), d := ray.d } hitf
                  vstack rng1
              else
                let hitf := hitf || bounce == 0
                let radiance :=
                  radiance + weight * eval_emission material normal outgoing
                match sample_direction_mis S material normal outgoing position
                    weight rng1 with
                | (none, rng2) => (finish_vec radiance hitf, rng2)
                | (some (incoming, weight'), rng2) =>
                  let vstack' := update_vstack (S.is_volumetric intersection)
                    normal outgoing incoming (S.eval_material intersection)
                    vstack
                  let ray' : ray3f := { o := position, d := incoming }
                  if weight' = (0 : vec3f) ∨ isfinite3 weight' = false then
                    (finish_vec radiance hitf, rng2)
                  else
                    match russian_roulette bounce weight' rng2 with
                    | (none, rng3) => (finish_vec radiance hitf, rng3)
                    | (some weight'', rng3) =>
                      shade_volpathtrace_loop S bounces fuel (bounce + 1)
                        radiance weight'' ray' hitf vstack' rng3
          else
            -- handle volume (lines 539-559)
            let outgoing := -ray.d
            let position := ray_point ray intersection.distance
            let vol := vstack.getLastD default
            let radiance :=
              radiance + weight * eval_emission vol position outgoing
            match rand1f rng0 with
            | none => (finish_vec radiance hitf, rng0)
            | some (rs, rng1) =>
              match
                (if rs < 1 / 2 then
                  match rand1f rng1 with
                  | none => none
                  | some (rnl, rng2) =>
                    match rand2f rng2 with
                    | none => none
                    | some (ruv, rng3) =>
                      some (sample_scattering S.sample_phasefunction vol
                        outgoing rnl ruv, rng3)
                else
                  match rand1f rng1 with
                  | none => none
                  | some (rl, rng2) =>
                    match rand1f rng2 with
                    | none => none
                    | some (rel, rng3) =>
                      match rand2f rng3 with
                      | none => none
                      | some (ruv, rng4) =>
                        some (S.sample_lights position rl rel ruv, rng4)) with
              | none => (finish_vec radiance hitf, rng1)
              | some (incoming, rng2) =>
                let weight := weight *
                  (eval_scattering S.eval_phasefunction vol outgoing incoming /
                    (1 / 2 * sample_scattering_pdf S.sample_phasefunction_pdf
                        vol outgoing incoming +
                     1 / 2 * S.sample_lights_pdf position incoming))
                let ray' : ray3f := { o := position, d := incoming }
                if weight = (0 : vec3f) ∨ isfinite3 weight = false then
                  (finish_vec radiance hitf, rng2)
                else
                  match russian_roulette bounce weight rng2 with
                  | (none, rng3) => (finish_vec radiance hitf, rng3)
                  | (some weight', rng3) =>
                    shade_volpathtrace_loop S bounces fuel (bounce + 1)
                      radiance weight' ray' hitf vstack rng3

/-- `shade_volpathtrace`: run the loop with an initially empty volumetric
stack. -/
def shade_volpathtrace (S : scene_model) (params : pathtrace_params)
    (ray : ray3f) (rng : rngList) : vec4f × rngList :=
  shade_volpathtrace_loop S params.bounces (rng.length + 1) 0 0 1 ray false
    [] rng

/-- The render state (`pathtrace_state`): accumulator image, hit counters and
per-pixel random tapes. -/
structure pathtrace_state where
  width : ℕ := 0
  height : ℕ := 0
  samples : ℕ := 0
  image : List vec4f := []
  hits : List ℕ := []
  rngs : List rngList := []
deriving DecidableEq, Repr

/-- `make_state` (yocto_pathtrace.cpp, lines 864-884): sizes from resolution
and aspect, zeroed accumulators, freshly seeded per-pixel tapes.  The
camera's `aspect` and the PCG seeding (`make_rng`, yocto library) enter as
parameters. -/
def make_state (aspect : ℚ) (resolution : ℕ) (seeds : ℕ → rngList) :
    pathtrace_state :=
  let width := if 1 ≤ aspect then resolution
    else (round ((resolution : ℚ) * aspect)).toNat
  let height := if 1 ≤ aspect then (round ((resolution : ℚ) / aspect)).toNat
    else resolution
  { width := width
    height := height
    samples := 0
    image := List.replicate (width * height) 0
    hits := List.replicate (width * height) 0
    rngs := (List.range (width * height)).map seeds }

/-- The film coordinate used by `pathtrace_samples` (lines 950-976): the
pixel centre in the `params.samples == 1` branch, the jittered point in the
`noparallel` and parallel branches (which compute it identically). -/
def pixel_uv (samples_param W H idx : ℕ) (rng : rngList) :
    (ℚ × ℚ) × rngList :=
  let i := idx % W
  let j := idx / W
  if samples_param = 1 then
    ((((i : ℚ) + 1 / 2) / (W : ℚ), ((j : ℚ) + 1 / 2) / (H : ℚ)), rng)
  else
    let p1 := (rand1f rng).getD (0, [])
    let p2 := (rand1f p1.2).getD (0, [])
    ((((i : ℚ) + p1.1) / (W : ℚ), ((j : ℚ) + p2.1) / (H : ℚ)), p2.2)

/-- One pixel of one sample (the common body of the three branches of
`pathtrace_samples`): film coordinate, lens sample, camera ray, shader call,
non-finite clamp.  Returns the radiance to accumulate and the advanced
tape. -/
def sample_pixel (camera : ℚ × ℚ → ℚ × ℚ → ray3f)
    (shader : ray3f → rngList → vec4f × rngList)
    (samples_param W H idx : ℕ) (rng : rngList) : vec4f × rngList :=
  let uvr := pixel_uv samples_param W H idx rng
  let lensr := (rand2f uvr.2).getD ((0, 0), [])
  let ray := camera uvr.1 lensr.1
  let shaded := shader ray lensr.2
  let radiance := if isfinite4 shaded.1 = false then 0 else shaded.1
  (radiance, shaded.2)

/-- `pathtrace_samples` (yocto_pathtrace.cpp, lines 943-983): return the
state unchanged once `state.samples >= params.samples`; otherwise accumulate
one sample into every pixel.  The `samples == 1`, `noparallel` and parallel
branches differ only in the film coordinate, folded into `pixel_uv`;
`parallel_for` writes disjoint pixels, so it is modelled by the sequential
map.  The camera (`eval_camera`, yocto library) and the selected shader enter
as parameters. -/
def pathtrace_samples (camera : ℚ × ℚ → ℚ × ℚ → ray3f)
    (shader : ray3f → rngList → vec4f × rngList)
    (state : pathtrace_state) (params : pathtrace_params) :
    pathtrace_state :=
  if params.samples ≤ state.samples then state
  else
    let step := fun idx => sample_pixel camera shader params.samples
      state.width state.height idx (state.rngs.getD idx [])
    { state with
      samples := state.samples + 1
      image := (List.range (state.width * state.height)).map
        (fun idx => state.image.getD idx 0 + (step idx).1)
      hits := (List.range (state.width * state.height)).map
        (fun idx => state.hits.getD idx 0 + 1)
      rngs := (List.range (state.width * state.height)).map
        (fun idx => (step idx).2) }

/-- Calling `pathtrace_samples` repeatedly, as the render driver does. -/
def iterate_samples (camera : ℚ × ℚ → ℚ × ℚ → ray3f)
    (shader : ray3f → rngList → vec4f × rngList)
    (params : pathtrace_params) : ℕ → pathtrace_state → pathtrace_state
  | 0, state => state
  | n + 1, state =>
    iterate_samples camera shader params n
      (pathtrace_samples camera shader state params)

/-- An IEEE-style float value for `get_render`, where the division by
`state.samples` makes the special values observable: a finite rational,
the two infinities, or NaN. -/
inductive mfloat where
  | fin (q : ℚ)
  | inf
  | ninf
  | nan
deriving DecidableEq, Repr

/-- IEEE multiplication on the float model (`0 * ∞ = NaN`); the model keeps a
single zero, so the sign of zero is not tracked. -/
def mfloat.mul : mfloat → mfloat → mfloat
  | nan, _ => nan
  | _, nan => nan
  | fin a, fin b => fin (a * b)
  | fin a, inf => if 0 < a then inf else if a < 0 then ninf else nan
  | fin a, ninf => if 0 < a then ninf else if a < 0 then inf else nan
  | inf, fin a => if 0 < a then inf else if a < 0 then ninf else nan
  | ninf, fin a => if 0 < a then ninf else if a < 0 then inf else nan
  | inf, inf => inf
  | inf, ninf => ninf
  | ninf, inf => ninf
  | ninf, ninf => inf

/-- IEEE division on the float model (`1 / 0 = +∞`, `0 / 0 = NaN`). -/
def mfloat.div : mfloat → mfloat → mfloat
  | nan, _ => nan
  | _, nan => nan
  | fin a, fin b =>
    if b ≠ 0 then fin (a / b)
    else if 0 < a then inf else if a < 0 then ninf else nan
  | fin _, inf => fin 0
  | fin _, ninf => fin 0
  | inf, fin b => if b < 0 then ninf else inf
  | ninf, fin b => if b < 0 then inf else ninf
  | inf, inf => nan
  | inf, ninf => nan
  | ninf, inf => nan
  | ninf, ninf => nan

/-- A read-out pixel: four channels in the float model. -/
structure mvec4 where
  x : mfloat
  y : mfloat
  z : mfloat
  w : mfloat
deriving DecidableEq, Repr

/-- `get_render` (yocto_pathtrace.cpp, lines 1001-1007):
`scale = 1.0f / (float)state.samples`, then every accumulator pixel is
multiplied by `scale`.  The division and products are taken in the IEEE
float model, which is exact here: no rounding is involved in `1/0` or
`0 * ∞`. -/
def get_render (state : pathtrace_state) : List mvec4 :=
  let scale := mfloat.div (.fin 1) (.fin (state.samples : ℚ))
  state.image.map (fun p =>
    ⟨.mul (.fin p.x) scale, .mul (.fin p.y) scale,
     .mul (.fin p.z) scale, .mul (.fin p.w) scale⟩)

/-- Quad faces for the tesselator (yocto `vec4i`); a triangle is a quad with
`z == w`. -/
structure vec4i where
  x : ℕ
  y : ℕ
  z : ℕ
  w : ℕ
deriving DecidableEq, Repr

/-- The directed edges a face contributes: four for a quad, three for a
degenerate quad (triangle, `z == w`), per the edge-map insertion order of the
yocto shape library. -/
def quad_edges (q : vec4i) : List (ℕ × ℕ) :=
  if q.z ≠ q.w then [(q.x, q.y), (q.y, q.z), (q.z, q.w), (q.w, q.x)]
  else [(q.x, q.y), (q.y, q.z), (q.z, q.x)]

/-- An undirected edge, represented by its sorted endpoints. -/
def norm_edge (e : ℕ × ℕ) : ℕ × ℕ := (min e.1 e.2, max e.1 e.2)

/-- Modelled from the spec: `make_edge_map` / `get_edges` of the yocto shape
library (not under src/) assign "a unique index to each undirected edge"; the
edge list is the deduplicated list of undirected face edges in insertion
order. -/
def get_edges (quads : List vec4i) : List (ℕ × ℕ) :=
  ((quads.map quad_edges).flatten.map norm_edge).dedup

/-- Modelled from the spec: `edge_index` returns the assigned index of an
undirected edge. -/
def edge_index (edges : List (ℕ × ℕ)) (e : ℕ × ℕ) : ℕ :=
  edges.indexOf (norm_edge e)

/-- Modelled from the spec: `get_boundary` extracts "the boundary edges
(edges used by only one face)". -/
def get_boundary (quads : List vec4i) : List (ℕ × ℕ) :=
  (get_edges quads).filter
    (fun e => ((quads.map quad_edges).flatten.map norm_edge).count e = 1)

/-- The faces emitted for input face number `i` by one Catmull-Clark step
(yocto_pathtrace.cpp, lines 1040-1067): four quads for a non-degenerate quad,
three for a triangle, connecting corner, edge points (offset `nv`) and the
face point (offset `nv + ne`). -/
def subdiv_face (nv ne : ℕ) (edges : List (ℕ × ℕ)) (i : ℕ) (q : vec4i) :
    List vec4i :=
  if q.z ≠ q.w then
    [⟨q.x, nv + edge_index edges (q.x, q.y), nv + ne + i,
      nv + edge_index edges (q.w, q.x)⟩,
     ⟨q.y, nv + edge_index edges (q.y, q.z), nv + ne + i,
      nv + edge_index edges (q.x, q.y)⟩,
     ⟨q.z, nv + edge_index edges (q.z, q.w), nv + ne + i,
      nv + edge_index edges (q.y, q.z)⟩,
     ⟨q.w, nv + edge_index edges (q.w, q.x), nv + ne + i,
      nv + edge_index edges (q.z, q.w)⟩]
  else
    [⟨q.x, nv + edge_index edges (q.x, q.y), nv + ne + i,
      nv + edge_index edges (q.z, q.x)⟩,
     ⟨q.y, nv + edge_index edges (q.y, q.z), nv + ne + i,
      nv + edge_index edges (q.x, q.y)⟩,
     ⟨q.z, nv + edge_index edges (q.z, q.x), nv + ne + i,
      nv + edge_index edges (q.y, q.z)⟩]

/-- The vertex list built by one Catmull-Clark step (yocto_pathtrace.cpp,
lines 1027-1036): original vertices, then edge midpoints, then face points
(quad average or triangle centroid). -/
def tess_points (quads : List vec4i) (vert : List vec3f) : List vec3f :=
  vert ++
    (get_edges quads).map
      (fun e => (vert.getD e.1 0 + vert.getD e.2 0) / (2 : ℚ)) ++
    quads.map (fun q =>
      if q.z ≠ q.w then
        (vert.getD q.x 0 + vert.getD q.y 0 + vert.getD q.z 0 +
          vert.getD q.w 0) / (4 : ℚ)
      else (vert.getD q.x 0 + vert.getD q.y 0 + vert.getD q.z 0) / (3 : ℚ))

/-- `avert[i] += v` of the averaging pass. -/
def add_at (l : List vec3f) (i : ℕ) (v : vec3f) : List vec3f :=
  l.set i (l.getD i 0 + v)

/-- `acount[i] += 1` of the averaging pass. -/
def inc_at (l : List ℕ) (i : ℕ) : List ℕ :=
  l.set i (l.getD i 0 + 1)

/-- One subdivision step, `tesselate_catmullclark` (yocto_pathtrace.cpp,
lines 1010-1127), at `T = vec3f`: edge map, new vertices and faces, boundary
refinement, valence classes, averaging and the interior correction pass.
The `acount[i] = 0` division is `0` in ℚ where the float code yields NaN;
no property below depends on such a vertex value. -/
def tesselate_catmullclark (quads : List vec4i) (vert : List vec3f)
    (lock_boundary : Bool) : List vec4i × List vec3f :=
  let edges := get_edges quads
  let boundary := get_boundary quads
  let nv := vert.length
  let ne := edges.length
  let tverts := tess_points quads vert
  let tquads := (quads.enum).flatMap (fun p => subdiv_face nv ne edges p.1 p.2)
  let tboundary := boundary.flatMap (fun e =>
    [(e.1, nv + edge_index edges e), (nv + edge_index edges e, e.2)])
  let tcrease_edges := if lock_boundary then [] else tboundary
  let tcrease_verts :=
    if lock_boundary then tboundary.flatMap (fun e => [e.1, e.2]) else []
  let bval : ℕ := if lock_boundary then 0 else 1
  let tverts_val := tboundary.foldl
    (fun acc e => (acc.set e.1 bval).set e.2 bval)
    (List.replicate tverts.length 2)
  let st0 : List vec3f × List ℕ :=
    (List.replicate tverts.length 0, List.replicate tverts.length 0)
  let st1 := tcrease_verts.foldl (fun acc p =>
    if tverts_val.getD p 2 ≠ 0 then acc
    else (add_at acc.1 p (tverts.getD p 0), inc_at acc.2 p)) st0
  let st2 := tcrease_edges.foldl (fun acc e =>
    let c := (tverts.getD e.1 0 + tverts.getD e.2 0) / (2 : ℚ)
    let acc1 := if tverts_val.getD e.1 2 ≠ 1 then acc
      else (add_at acc.1 e.1 c, inc_at acc.2 e.1)
    if tverts_val.getD e.2 2 ≠ 1 then acc1
    else (add_at acc1.1 e.2 c, inc_at acc1.2 e.2)) st1
  let st3 := tquads.foldl (fun acc q =>
    let c := (tverts.getD q.x 0 + tverts.getD q.y 0 + tverts.getD q.z 0 +
      tverts.getD q.w 0) / (4 : ℚ)
    let acc1 := if tverts_val.getD q.x 2 ≠ 2 then acc
      else (add_at acc.1 q.x c, inc_at acc.2 q.x)
    let acc2 := if tverts_val.getD q.y 2 ≠ 2 then acc1
      else (add_at acc1.1 q.y c, inc_at acc1.2 q.y)
    let acc3 := if tverts_val.getD q.z 2 ≠ 2 then acc2
      else (add_at acc2.1 q.z c, inc_at acc2.2 q.z)
    if tverts_val.getD q.w 2 ≠ 2 then acc3
    else (add_at acc3.1 q.w c, inc_at acc3.2 q.w)) st2
  let avert0 := (List.range tverts.length).map
    (fun i => st3.1.getD i 0 / ((st3.2.getD i 0 : ℕ) : ℚ))
  let avert := (List.range tverts.length).map (fun i =>
    if tverts_val.getD i 2 ≠ 2 then avert0.getD i 0
    else tverts.getD i 0 +
      (avert0.getD i 0 - tverts.getD i 0) * ((4 : ℚ) / (st3.2.getD i 0 : ℚ)))
  (tquads, avert)

/-! ## Unfolding lemmas for the vector instances (concrete evaluation goes
through `simp`/`norm_num`, since kernel reduction is unavailable for ℚ). -/

theorem vec3f_add (a b : vec3f) :
    a + b = ⟨a.x + b.x, a.y + b.y, a.z + b.z⟩ := rfl

theorem vec3f_sub (a b : vec3f) :
    a - b = ⟨a.x - b.x, a.y - b.y, a.z - b.z⟩ := rfl

theorem vec3f_mul (a b : vec3f) :
    a * b = ⟨a.x * b.x, a.y * b.y, a.z * b.z⟩ := rfl

theorem vec3f_neg (a : vec3f) : -a = ⟨-a.x, -a.y, -a.z⟩ := rfl

theorem vec3f_smul (a : vec3f) (s : ℚ) :
    a * s = ⟨a.x * s, a.y * s, a.z * s⟩ := rfl

theorem vec3f_sdiv (a : vec3f) (s : ℚ) :
    a / s = ⟨a.x / s, a.y / s, a.z / s⟩ := rfl

theorem vec3f_zero : (0 : vec3f) = ⟨0, 0, 0⟩ := rfl

theorem vec3f_one : (1 : vec3f) = ⟨1, 1, 1⟩ := rfl

theorem vec4f_add (a b : vec4f) :
    a + b = ⟨a.x + b.x, a.y + b.y, a.z + b.z, a.w + b.w⟩ := rfl

theorem vec4f_zero : (0 : vec4f) = ⟨0, 0, 0, 0⟩ := rfl

theorem vec4f_zero_x : (0 : vec4f).x = 0 := rfl

theorem vec4f_zero_y : (0 : vec4f).y = 0 := rfl

theorem vec4f_zero_z : (0 : vec4f).z = 0 := rfl

theorem vec4f_zero_w : (0 : vec4f).w = 0 := rfl

/-! ## Claim C4: the volume-scattering contribution -/

/-- A constant phase-function value, enough to separate the code's formula
from the spec's words. -/
def phase_one : ℚ → vec3f → vec3f → ℚ := fun _ _ _ => 1

/-- A homogeneous medium with albedo 1/2. -/
def volmat : material_point :=
  { type := .volumetric, density := ⟨1, 1, 1⟩,
    scattering := ⟨1 / 2, 1 / 2, 1 / 2⟩ }

/-- C4, counterexample.  With `density = σ_t = (1,1,1)`,
`scattering = albedo = (1/2,1/2,1/2)` and phase value 1, `eval_scattering`
returns `σ_t·albedo·phase = (1/2,…)`, while the claimed
`σ_s·albedo·phase = density·scattering²·phase` would be `(1/4,…)`: the
claim's formula carries one albedo factor too many. -/
theorem C4_counterexample :
    eval_scattering phase_one volmat ⟨0, 0, 1⟩ ⟨0, 0, -1⟩ =
      ⟨1 / 2, 1 / 2, 1 / 2⟩ ∧
    eval_scattering_specwords phase_one volmat ⟨0, 0, 1⟩ ⟨0, 0, -1⟩ =
      ⟨1 / 4, 1 / 4, 1 / 4⟩ ∧
    eval_scattering phase_one volmat ⟨0, 0, 1⟩ ⟨0, 0, -1⟩ ≠
      eval_scattering_specwords phase_one volmat ⟨0, 0, 1⟩ ⟨0, 0, -1⟩ := by
  refine ⟨?_, ?_, ?_⟩ <;>
    norm_num [eval_scattering, eval_scattering_specwords, phase_one, volmat,
      vec3f_mul, vec3f_smul]

/-- C4, amended: the scattering contribution evaluated by `eval_scattering`
equals `σ_s · phase(g, incoming, outgoing)` where
`σ_s = σ_t · albedo = density * scattering` — with no extra albedo
factor. -/
theorem C4_scattering_formula (phase : ℚ → vec3f → vec3f → ℚ)
    (material : material_point) (outgoing incoming : vec3f) :
    eval_scattering phase material outgoing incoming =
      sigma_s material * phase material.scanisotropy incoming outgoing :=
  rfl

/-! ## Claim C5: the volumetric-stack update -/

/-- Medium A for the C5 counterexample. -/
def matA : material_point := { type := .volumetric, density := ⟨1, 1, 1⟩ }

/-- Medium B, a different medium. -/
def matB : material_point := { type := .volumetric, density := ⟨2, 2, 2⟩ }

/-- C5, counterexample.  On a boundary-crossing hit of medium B with medium A
on the stack, the spec's rule ("push if exiting the current stack's context:
empty or a different medium") would push B, but the code pops A: the code
never consults the medium's identity, only stack emptiness. -/
theorem C5_counterexample :
    update_vstack true ⟨0, 0, 1⟩ ⟨0, 0, 1⟩ ⟨0, 0, -1⟩ matB [matA] = [] ∧
    update_vstack_specwords true ⟨0, 0, 1⟩ ⟨0, 0, 1⟩ ⟨0, 0, -1⟩ matB [matA] =
      [matA, matB] ∧
    update_vstack true ⟨0, 0, 1⟩ ⟨0, 0, 1⟩ ⟨0, 0, -1⟩ matB [matA] ≠
      update_vstack_specwords true ⟨0, 0, 1⟩ ⟨0, 0, 1⟩ ⟨0, 0, -1⟩ matB
        [matA] := by
  refine ⟨?_, ?_, ?_⟩ <;>
    norm_num [update_vstack, update_vstack_specwords, dot, matA, matB]
  exact List.cons_ne_nil _ _

/-- C5, amended: the stack is pushed or popped iff the hit instance is
volumetric and the ray crossed the boundary
(`dot(n,wo)·dot(n,wi) < 0`); on a crossing, the material is pushed iff the
stack is empty and popped otherwise, irrespective of which medium it is — so
the stack never holds more than one entry along a path that starts with an
empty stack. -/
theorem C5_vstack_rule (is_vol : Bool) (normal outgoing incoming : vec3f)
    (material : material_point) (vstack : List material_point) :
    (¬ (is_vol ∧ dot normal outgoing * dot normal incoming < 0) →
      update_vstack is_vol normal outgoing incoming material vstack =
        vstack) ∧
    ((is_vol ∧ dot normal outgoing * dot normal incoming < 0) →
      vstack = [] →
      update_vstack is_vol normal outgoing incoming material vstack =
        [material]) ∧
    ((is_vol ∧ dot normal outgoing * dot normal incoming < 0) →
      vstack ≠ [] →
      update_vstack is_vol normal outgoing incoming material vstack =
        vstack.dropLast) ∧
    (vstack.length ≤ 1 →
      (update_vstack is_vol normal outgoing incoming material
        vstack).length ≤ 1) := by
  refine ⟨?_, ?_, ?_, ?_⟩
  · intro h
    simp only [update_vstack, if_neg h]
  · intro h he
    subst he
    simp [update_vstack, h]
  · intro h he
    simp [update_vstack, h, List.isEmpty_iff, he]
  · intro hlen
    unfold update_vstack
    split
    · split
      · next he => simp [List.isEmpty_iff.mp he]
      · calc vstack.dropLast.length = vstack.length - 1 :=
              List.length_dropLast vstack
          _ ≤ 1 := by omega
    · exact hlen

/-- C5, witness: an entering crossing on an empty stack pushes the medium. -/
theorem C5_vstack_rule_witness :
    update_vstack true ⟨0, 0, 1⟩ ⟨0, 0, 1⟩ ⟨0, 0, -1⟩ matA [] = [matA] :=
  (C5_vstack_rule true ⟨0, 0, 1⟩ ⟨0, 0, 1⟩ ⟨0, 0, -1⟩ matA []).2.1
    (by norm_num [dot]) rfl

/-! ## Claim C6: the mesh-light CDF -/

/-- The C6 claim as stated, over the per-element areas of a mesh light: the
running-sum recurrence, monotonicity, positive first and last entries, and
the omission of zero-area elements (one CDF entry per non-zero-area
element). -/
def mesh_cdf_claim (areas : List ℚ) : Prop :=
  (∀ i, 0 < i → i < (elements_cdf areas).length →
    (elements_cdf areas).getD i 0 =
      (elements_cdf areas).getD (i - 1) 0 + areas.getD i 0) ∧
  (∀ i j, i ≤ j → j < (elements_cdf areas).length →
    (elements_cdf areas).getD i 0 ≤ (elements_cdf areas).getD j 0) ∧
  (elements_cdf areas ≠ [] → 0 < (elements_cdf areas).getD 0 0) ∧
  (elements_cdf areas ≠ [] → 0 < (elements_cdf areas).getLastD 0) ∧
  (elements_cdf areas).length = (areas.filter (fun a => a ≠ 0)).length

/-- C6, counterexample.  A mesh light whose first element is degenerate
(`triangle_area = 0`, e.g. three equal vertices) gets CDF `[0]`: `cdf[0] > 0`
fails and the zero-area element is not omitted (`make_lights` builds one
entry per element, unfiltered). -/
theorem C6_counterexample :
    elements_cdf [0] = [0] ∧ ¬ mesh_cdf_claim [0] := by
  constructor
  · norm_num [elements_cdf, elements_cdf_from]
  · intro h
    have h0 := h.2.2.1 (by simp [elements_cdf, elements_cdf_from])
    norm_num [elements_cdf, elements_cdf_from] at h0

/-- `elements_cdf_from` has one entry per element. -/
theorem elements_cdf_from_length (prev : ℚ) (areas : List ℚ) :
    (elements_cdf_from prev areas).length = areas.length := by
  induction areas generalizing prev with
  | nil => rfl
  | cons a rest ih => simp [elements_cdf_from, ih]

/-- Each entry of `elements_cdf_from` is the starting value plus the prefix
sum of areas. -/
theorem elements_cdf_from_getD (prev : ℚ) (areas : List ℚ) (i : ℕ)
    (h : i < areas.length) :
    (elements_cdf_from prev areas).getD i 0 =
      prev + (areas.take (i + 1)).sum := by
  induction areas generalizing prev i with
  | nil => simp at h
  | cons a rest ih =>
    cases i with
    | zero => simp [elements_cdf_from]
    | succ n =>
      have hn : n < rest.length := by simpa using h
      simp only [elements_cdf_from, List.getD_cons_succ, ih (prev + a) n hn,
        List.take_succ_cons, List.sum_cons]
      ring

/-- The last CDF entry is the starting value plus the total area. -/
theorem elements_cdf_from_getLastD (prev : ℚ) (areas : List ℚ) :
    (elements_cdf_from prev areas).getLastD prev = prev + areas.sum := by
  induction areas generalizing prev with
  | nil => simp [elements_cdf_from]
  | cons a rest ih =>
    simp only [elements_cdf_from, List.getLastD_cons, ih (prev + a),
      List.sum_cons]
    ring

/-- Prefix sums of a nonnegative list are monotone in the prefix length. -/
theorem take_sum_mono (l : List ℚ) (hnn : ∀ a ∈ l, 0 ≤ a) (m n : ℕ)
    (h : m ≤ n) : (l.take m).sum ≤ (l.take n).sum := by
  have hsplit : l.take n = l.take m ++ (l.drop m).take (n - m) := by
    rw [← List.take_add]
    congr 1
    omega
  rw [hsplit, List.sum_append]
  have : 0 ≤ ((l.drop m).take (n - m)).sum := by
    apply List.sum_nonneg
    intro a ha
    exact hnn a (List.drop_subset m l (List.take_subset _ _ ha))
  linarith

/-- C6, amended: for nonnegative per-element areas the CDF built by
`make_lights` satisfies the recurrence `cdf[i] = cdf[i-1] + area_i`, is
non-decreasing, has one entry per element of the shape (zero-area elements
are NOT omitted, so `cdf[0] = area_0` may be zero), and its last entry is the
total area (positive only when some element has positive area). -/
theorem C6_cdf_properties (areas : List ℚ) (hnn : ∀ a ∈ areas, 0 ≤ a) :
    (∀ i, 0 < i → i < (elements_cdf areas).length →
      (elements_cdf areas).getD i 0 =
        (elements_cdf areas).getD (i - 1) 0 + areas.getD i 0) ∧
    (∀ i j, i ≤ j → j < (elements_cdf areas).length →
      (elements_cdf areas).getD i 0 ≤ (elements_cdf areas).getD j 0) ∧
    (elements_cdf areas).length = areas.length ∧
    (elements_cdf areas).getLastD 0 = areas.sum := by
  have hlen : (elements_cdf areas).length = areas.length :=
    elements_cdf_from_length 0 areas
  refine ⟨?_, ?_, hlen, ?_⟩
  · intro i hi hilen
    have hia : i < areas.length := hlen ▸ hilen
    have hia' : i - 1 < areas.length := by omega
    rw [elements_cdf, elements_cdf_from_getD 0 areas i hia,
      elements_cdf_from_getD 0 areas (i - 1) hia']
    have h1 : i - 1 + 1 = i := by omega
    rw [h1]
    have htake : areas.take (i + 1) = areas.take i ++ areas[i]?.toList :=
      List.take_succ
    have hget : areas[i]? = some (areas.getD i 0) := by
      rw [List.getElem?_eq_getElem hia, List.getD_eq_getElem?_getD,
        List.getElem?_eq_getElem hia]
      rfl
    rw [htake, hget, List.sum_append]
    simp only [Option.toList_some, List.sum_cons, List.sum_nil]
    ring
  · intro i j hij hjlen
    have hja : j < areas.length := hlen ▸ hjlen
    have hia : i < areas.length := by omega
    rw [elements_cdf, elements_cdf_from_getD 0 areas i hia,
      elements_cdf_from_getD 0 areas j hja]
    have := take_sum_mono areas hnn (i + 1) (j + 1) (by omega)
    linarith
  · simpa [elements_cdf] using elements_cdf_from_getLastD 0 areas

/-- C6, witness: a light with areas `[1/2, 0, 2]` (one degenerate middle
element): the recurrence at `i = 2` and the total `5/2`. -/
theorem C6_cdf_properties_witness :
    (elements_cdf [1 / 2, 0, 2]).getD 2 0 =
      (elements_cdf [1 / 2, 0, 2]).getD 1 0 +
        ([(1 : ℚ) / 2, 0, 2].getD 2 0) ∧
    (elements_cdf [1 / 2, 0, 2]).getLastD 0 = 5 / 2 := by
  have h := C6_cdf_properties [1 / 2, 0, 2] (by
    intro a ha
    fin_cases ha <;> norm_num)
  refine ⟨h.1 2 (by norm_num)
    (by norm_num [elements_cdf, elements_cdf_from]), ?_⟩
  rw [h.2.2.2]
  norm_num [List.sum_cons, List.sum_nil]

/-! ## Claim C1: behaviour at `bounces = 0` -/

/-- A scene whose every primary ray hits an emissive surface: the BVH always
reports a hit, the shading normal faces the camera and the material emits
`(1,1,1)`. -/
def emissive_scene : scene_model where
  intersect_bvh := fun _ => some {}
  eval_environment := fun _ => 0
  eval_shading_position := fun _ _ => 0
  eval_shading_normal := fun _ _ => ⟨0, 0, 1⟩
  eval_material := fun _ => { emission := ⟨1, 1, 1⟩ }
  is_volumetric := fun _ => false
  sample_bsdfcos := fun _ _ _ _ _ => 0
  eval_bsdfcos := fun _ _ _ _ => 0
  sample_bsdfcos_pdf := fun _ _ _ _ => 0
  sample_delta := fun _ _ _ _ => 0
  eval_delta := fun _ _ _ _ => 0
  sample_delta_pdf := fun _ _ _ _ => 0
  sample_lights := fun _ _ _ _ => 0
  sample_lights_pdf := fun _ _ => 0
  sample_transmittance := fun _ _ _ _ => 0
  eval_transmittance := fun _ _ => 0
  sample_transmittance_pdf := fun _ _ _ => 0
  eval_phasefunction := fun _ _ _ => 0
  sample_phasefunction := fun _ _ _ => 0
  sample_phasefunction_pdf := fun _ _ _ => 0

/-- A primary ray looking down -z at the emissive surface. -/
def cam_ray : ray3f := { o := ⟨0, 0, 2⟩, d := ⟨0, 0, -1⟩ }

/-- The C1 claim as stated, for `shade_pathtrace`: with `bounces = 0` the
shader returns exactly the emission at the primary intersection (with the
hit flag set), or zero on a miss. -/
def bounces_zero_emission_claim (S : scene_model) (ray : ray3f)
    (rng : rngList) : Prop :=
  (shade_pathtrace S { bounces := 0 } ray rng).1 =
    match S.intersect_bvh ray with
    | none => ⟨0, 0, 0, 0⟩
    | some isec =>
      finish_vec
        (eval_emission (S.eval_material isec)
          (S.eval_shading_normal isec (-ray.d)) (-ray.d)) true

/-- C1, counterexample.  The bounce loop `for (bounce = 0; bounce <
params.bounces; …)` runs zero times when `params.bounces = 0`, so the shader
returns `{0,0,0,0}` without even intersecting, while the claim demands the
emission `(1,1,1)` with alpha 1 at this scene. -/
theorem C1_counterexample :
    ¬ bounces_zero_emission_claim emissive_scene cam_ray [] := by
  intro h
  norm_num [bounces_zero_emission_claim, shade_pathtrace,
    shade_pathtrace_loop, emissive_scene, cam_ray, eval_emission, finish_vec,
    dot, vec3f_neg, vec3f_zero] at h

/-- C1, amended: when `params.bounces = 0` every one of the three bounce-loop
shaders returns `{0,0,0,0}` — zero radiance and hit flag 0 — for every scene,
ray and tape, leaving the tape untouched (no intersection is performed;
returning the emission at the primary intersection only is the `bounces = 1`
behaviour). -/
theorem C1_bounces_zero_returns_zero (S : scene_model) (ray : ray3f)
    (rng : rngList) (params : pathtrace_params) (h : params.bounces = 0) :
    shade_pathtrace S params ray rng = (⟨0, 0, 0, 0⟩, rng) ∧
    shade_naive S params ray rng = (⟨0, 0, 0, 0⟩, rng) ∧
    shade_volpathtrace S params ray rng = (⟨0, 0, 0, 0⟩, rng) := by
  refine ⟨?_, ?_, ?_⟩ <;>
    simp [shade_pathtrace, shade_naive, shade_volpathtrace,
      shade_pathtrace_loop, shade_naive_loop, shade_volpathtrace_loop, h,
      finish_vec, vec3f_zero]

/-- C1, witness: the zero return at the concrete emissive scene. -/
theorem C1_bounces_zero_returns_zero_witness :
    shade_pathtrace emissive_scene { bounces := 0 } cam_ray [] =
      (⟨0, 0, 0, 0⟩, []) :=
  (C1_bounces_zero_returns_zero emissive_scene cam_ray [] { bounces := 0 }
    rfl).1

/-! ## Claim C2: the film coordinate of the first sample -/

/-- A camera that records the film coordinate in the ray origin, to observe
the coordinate `pathtrace_samples` actually uses. -/
def probe_camera : ℚ × ℚ → ℚ × ℚ → ray3f :=
  fun uv _ => { o := ⟨uv.1, uv.2, 0⟩, d := ⟨0, 0, 1⟩ }

/-- A shader that reports the ray origin, i.e. the film coordinate. -/
def probe_shader : ray3f → rngList → vec4f × rngList :=
  fun ray rng => (⟨ray.o.x, ray.o.y, 0, 0⟩, rng)

/-- A fresh 1×1 render state (zero samples accumulated, so the next sample is
the very first) whose pixel tape draws `1/4` then `1/3`. -/
def c2_state : pathtrace_state :=
  { width := 1, height := 1, samples := 0, image := [0], hits := [0],
    rngs := [[1 / 4, 1 / 3, 0, 0]] }

/-- C2, counterexample.  With `params.samples = 2` the very first accumulated
sample (state.samples goes 0 → 1) already uses the jittered coordinate
`(1/4, 1/3)`, not the pixel centre `(1/2, 1/2)`: the source's centre branch
tests `params.samples == 1`, not which sample is being taken. -/
theorem C2_counterexample :
    pixel_uv 2 1 1 0 [1 / 4, 1 / 3] = ((1 / 4, 1 / 3), []) ∧
    (pathtrace_samples probe_camera probe_shader c2_state
      { samples := 2 }).samples = 1 ∧
    (pathtrace_samples probe_camera probe_shader c2_state
      { samples := 2 }).image = [⟨1 / 4, 1 / 3, 0, 0⟩] ∧
    ((1 : ℚ) / 4, (1 : ℚ) / 3) ≠
      ((((0 : ℕ) : ℚ) + 1 / 2) / ((1 : ℕ) : ℚ),
       (((0 : ℕ) : ℚ) + 1 / 2) / ((1 : ℕ) : ℚ)) := by
  refine ⟨?_, ?_, ?_, ?_⟩ <;>
    norm_num [pixel_uv, pathtrace_samples, sample_pixel, probe_camera,
      probe_shader, c2_state, rand1f, rand2f, isfinite4, vec4f_add,
      vec4f_zero, List.range_succ]
  exact ⟨rfl, rfl, rfl, rfl⟩

/-- C2, amended: the film coordinate is the pixel centre
`((i+0.5)/W, (j+0.5)/H)` iff the configured total `params.samples` equals 1
(in which case the run's single sample is centred); for any other total,
every sample — the very first included — uses the jittered
`((i+ξ₁)/W, (j+ξ₂)/H)`. -/
theorem C2_jitter_rule (sp W H idx : ℕ) (ξ₁ ξ₂ : ℚ) (rest : rngList) :
    pixel_uv 1 W H idx rest =
      (((((idx % W : ℕ) : ℚ) + 1 / 2) / ((W : ℕ) : ℚ),
        (((idx / W : ℕ) : ℚ) + 1 / 2) / ((H : ℕ) : ℚ)), rest) ∧
    (sp ≠ 1 → pixel_uv sp W H idx (ξ₁ :: ξ₂ :: rest) =
      (((((idx % W : ℕ) : ℚ) + ξ₁) / ((W : ℕ) : ℚ),
        (((idx / W : ℕ) : ℚ) + ξ₂) / ((H : ℕ) : ℚ)), rest)) := by
  constructor
  · simp [pixel_uv]
  · intro h
    simp [pixel_uv, h, rand1f]

/-- C2, witness: a two-sample configuration jitters by the tape draws. -/
theorem C2_jitter_rule_witness :
    pixel_uv 2 1 1 0 [1 / 3, 1 / 2] =
      (((((0 % 1 : ℕ) : ℚ) + 1 / 3) / ((1 : ℕ) : ℚ),
        (((0 / 1 : ℕ) : ℚ) + 1 / 2) / ((1 : ℕ) : ℚ)), []) :=
  (C2_jitter_rule 2 1 1 0 (1 / 3) (1 / 2) []).2 (by norm_num)

/-! ## Claim C3: `get_render` at zero accumulated samples -/

/-- A fresh 1×1 state with zero accumulated samples for C3. -/
def c3_state : pathtrace_state :=
  { width := 1, height := 1, samples := 0, image := [0], hits := [0],
    rngs := [[]] }

/-- C3, counterexample.  On a fresh 1×1 state with `samples = 0`,
`get_render` computes `scale = 1/0 = +∞` and multiplies the zero accumulator
by it: every channel is `0 · ∞ = NaN`, not zero. -/
theorem C3_counterexample :
    get_render c3_state = [⟨.nan, .nan, .nan, .nan⟩] ∧
    ([⟨.nan, .nan, .nan, .nan⟩] : List mvec4) ≠
      [⟨.fin 0, .fin 0, .fin 0, .fin 0⟩] := by
  constructor
  · norm_num [get_render, c3_state, mfloat.div, mfloat.mul, vec4f_zero_x,
      vec4f_zero_y, vec4f_zero_z, vec4f_zero_w]
  · simp

/-- C3, amended: when zero samples have been accumulated the accumulator
itself is zero everywhere with alpha 0 (as `make_state` creates it), but the
image returned by `get_render` is NaN in every channel of every pixel, since
the read-out divides by `state.samples = 0` (`scale = +∞`, `0 · ∞ = NaN`). -/
theorem C3_zero_samples_nan (aspect : ℚ) (resolution : ℕ)
    (seeds : ℕ → rngList) :
    (make_state aspect resolution seeds).samples = 0 ∧
    (make_state aspect resolution seeds).image =
      List.replicate ((make_state aspect resolution seeds).width *
        (make_state aspect resolution seeds).height) 0 ∧
    get_render (make_state aspect resolution seeds) =
      List.replicate ((make_state aspect resolution seeds).width *
        (make_state aspect resolution seeds).height)
        ⟨.nan, .nan, .nan, .nan⟩ := by
  refine ⟨rfl, rfl, ?_⟩
  simp [get_render, make_state, List.map_replicate, mfloat.div, mfloat.mul,
    vec4f_zero_x, vec4f_zero_y, vec4f_zero_z, vec4f_zero_w]

/-! ## Claim C8: Russian roulette -/

/-- C8: the Russian-roulette step, invoked by the bounce loops of
`shade_pathtrace`, `shade_volpathtrace` and `shade_naive` at the end of every
iteration (see their definitions), runs only at bounces strictly greater
than 3; there the survival probability is `min(0.99, max channel of weight)`,
the path terminates iff the uniform draw is ≥ that probability, and a
survivor's weight is multiplied by its reciprocal. -/
theorem C8_russian_roulette (bounce : ℕ) (weight : vec3f) (r : ℚ)
    (rng : rngList) :
    (bounce ≤ 3 → russian_roulette bounce weight rng = (some weight, rng)) ∧
    (3 < bounce → min (99 / 100 : ℚ) weight.maxc ≤ r →
      russian_roulette bounce weight (r :: rng) = (none, rng)) ∧
    (3 < bounce → r < min (99 / 100 : ℚ) weight.maxc →
      russian_roulette bounce weight (r :: rng) =
        (some (weight * (1 / min (99 / 100 : ℚ) weight.maxc)), rng)) := by
  refine ⟨?_, ?_, ?_⟩
  · intro h
    simp [russian_roulette, Nat.not_lt.mpr h]
  · intro h hq
    simp [russian_roulette, h, rand1f, hq]
  · intro h hq
    simp [russian_roulette, h, rand1f, not_le.mpr hq]

/-- C8, witness: no roulette at bounce 2; termination at bounce 4 with a
draw of `0.99` against unit weight; survival at bounce 4 with draw 0 against
weight `(1/2,1/2,1/2)`, which gets divided by its own survival probability
`1/2`. -/
theorem C8_russian_roulette_witness :
    russian_roulette 2 1 [] = (some 1, []) ∧
    russian_roulette 4 1 [99 / 100] = (none, []) ∧
    russian_roulette 4 ⟨1 / 2, 1 / 2, 1 / 2⟩ [0] =
      (some ⟨1, 1, 1⟩, []) := by
  refine ⟨(C8_russian_roulette 2 1 0 []).1 (by norm_num),
    (C8_russian_roulette 4 1 (99 / 100) []).2.1 (by norm_num)
      (by norm_num [vec3f.maxc, vec3f_one]), ?_⟩
  rw [(C8_russian_roulette 4 ⟨1 / 2, 1 / 2, 1 / 2⟩ 0 []).2.2 (by norm_num)
    (by norm_num [vec3f.maxc])]
  norm_num [vec3f.maxc, vec3f_smul]

/-! ## Claim C10: the sample-count guard of `pathtrace_samples` -/

/-- C10: once `state.samples ≥ params.samples`, `pathtrace_samples` returns
the state unchanged (image, hits, tapes and counter); consequently, starting
from any state with `samples ≤ params.samples` (as `make_state` produces,
with 0), the counter never exceeds `params.samples` however many times the
driver calls it. -/
theorem C10_samples_guard (camera : ℚ × ℚ → ℚ × ℚ → ray3f)
    (shader : ray3f → rngList → vec4f × rngList)
    (state : pathtrace_state) (params : pathtrace_params) :
    (params.samples ≤ state.samples →
      pathtrace_samples camera shader state params = state) ∧
    (∀ n, state.samples ≤ params.samples →
      (iterate_samples camera shader params n state).samples ≤
        params.samples) := by
  constructor
  · intro h
    simp [pathtrace_samples, h]
  · intro n
    induction n generalizing state with
    | zero =>
      intro h
      simpa [iterate_samples] using h
    | succ m ih =>
      intro h
      rw [iterate_samples]
      apply ih
      by_cases hc : params.samples ≤ state.samples
      · simpa [pathtrace_samples, hc] using h
      · simp only [pathtrace_samples, if_neg hc]
        omega

/-- C10, witness: with `params.samples = 0` a fresh state is returned
unchanged, and three further calls leave the counter at 0. -/
theorem C10_samples_guard_witness :
    pathtrace_samples probe_camera probe_shader {} { samples := 0 } = {} ∧
    (iterate_samples probe_camera probe_shader { samples := 0 } 3
      {}).samples ≤ 0 :=
  ⟨(C10_samples_guard probe_camera probe_shader {} { samples := 0 }).1
      (by norm_num),
   (C10_samples_guard probe_camera probe_shader {} { samples := 0 }).2 3
      (by norm_num)⟩

/-! ## Claim C9: Catmull-Clark counts -/

/-- Each face yields four new quads, or three when degenerate
(`z == w`). -/
theorem subdiv_face_length (nv ne : ℕ) (edges : List (ℕ × ℕ)) (i : ℕ)
    (q : vec4i) :
    (subdiv_face nv ne edges i q).length = if q.z ≠ q.w then 4 else 3 := by
  unfold subdiv_face
  split <;> simp

/-- C9: one `tesselate_catmullclark` step outputs exactly
`n_v + n_e + n_f` vertices (the originals, the edge midpoints and the face
centroids, in that order, as `tess_points` lays them out before averaging —
averaging is an index-preserving update), its face list is the concatenation
over input faces of `subdiv_face`, and each non-degenerate quad produces
exactly four new quads while each degenerate quad (`z == w`) produces exactly
three, so the face total is the corresponding sum. -/
theorem C9_catmullclark_counts (quads : List vec4i) (vert : List vec3f)
    (lock_boundary : Bool) :
    ((tesselate_catmullclark quads vert lock_boundary).2).length =
      vert.length + (get_edges quads).length + quads.length ∧
    (tesselate_catmullclark quads vert lock_boundary).1 =
      quads.enum.flatMap (fun p =>
        subdiv_face vert.length (get_edges quads).length (get_edges quads)
          p.1 p.2) ∧
    ((tesselate_catmullclark quads vert lock_boundary).1).length =
      (quads.map (fun q => if q.z ≠ q.w then 4 else 3)).sum := by
  refine ⟨?_, rfl, ?_⟩
  · simp [tesselate_catmullclark, tess_points]
    omega
  · show (quads.enum.flatMap (fun p =>
      subdiv_face vert.length (get_edges quads).length (get_edges quads)
        p.1 p.2)).length = _
    rw [List.length_flatMap]
    simp only [Function.comp_def, subdiv_face_length]
    conv_rhs => rw [← List.enum_map_snd quads, List.map_map]
    rfl

/-! ## Claim C7: the alpha channel stays in [0, 1] per sample -/

theorem vec4f_add_w (a b : vec4f) : (a + b).w = a.w + b.w := rfl

/-- Every exit of the pathtrace bounce loop packs its result through
`finish_vec`. -/
theorem shade_pathtrace_loop_shape (S : scene_model) (bounces fuel : ℕ)
    (bounce : ℕ) (radiance weight : vec3f) (ray : ray3f) (hitf : Bool)
    (rng : rngList) :
    ∃ rad h rg,
      shade_pathtrace_loop S bounces fuel bounce radiance weight ray hitf
        rng = (finish_vec rad h, rg) := by
  induction fuel generalizing bounce radiance weight ray hitf rng with
  | zero => exact ⟨radiance, hitf, rng, rfl⟩
  | succ n ih =>
    simp only [shade_pathtrace_loop]
    repeat' first
      | apply ih
      | exact ⟨_, _, _, rfl⟩
      | split

/-- Every exit of the naive bounce loop packs its result through
`finish_vec`. -/
theorem shade_naive_loop_shape (S : scene_model) (bounces fuel : ℕ)
    (bounce : ℕ) (radiance weight : vec3f) (ray : ray3f) (hitf : Bool)
    (rng : rngList) :
    ∃ rad h rg,
      shade_naive_loop S bounces fuel bounce radiance weight ray hitf
        rng = (finish_vec rad h, rg) := by
  induction fuel generalizing bounce radiance weight ray hitf rng with
  | zero => exact ⟨radiance, hitf, rng, rfl⟩
  | succ n ih =>
    simp only [shade_naive_loop]
    repeat' first
      | apply ih
      | exact ⟨_, _, _, rfl⟩
      | split

/-- Every exit of the volumetric bounce loop packs its result through
`finish_vec`. -/
theorem shade_volpathtrace_loop_shape (S : scene_model) (bounces fuel : ℕ)
    (bounce : ℕ) (radiance weight : vec3f) (ray : ray3f) (hitf : Bool)
    (vstack : List material_point) (rng : rngList) :
    ∃ rad h rg,
      shade_volpathtrace_loop S bounces fuel bounce radiance weight ray hitf
        vstack rng = (finish_vec rad h, rg) := by
  induction fuel generalizing bounce radiance weight ray hitf vstack rng with
  | zero => exact ⟨radiance, hitf, rng, rfl⟩
  | succ n ih =>
    simp only [shade_volpathtrace_loop]
    repeat' first
      | apply ih
      | exact ⟨_, _, _, rfl⟩
      | split

/-- The alpha returned by `shade_pathtrace` is 0 or 1, hence in [0, 1]. -/
theorem shade_pathtrace_alpha (S : scene_model) (params : pathtrace_params)
    (ray : ray3f) (rng : rngList) :
    0 ≤ ((shade_pathtrace S params ray rng).1).w ∧
      ((shade_pathtrace S params ray rng).1).w ≤ 1 := by
  obtain ⟨rad, h, rg, heq⟩ := shade_pathtrace_loop_shape S params.bounces
    (rng.length + 1) 0 0 1 ray false rng
  rw [shade_pathtrace, heq]
  cases h <;> norm_num [finish_vec]

/-- The alpha returned by `shade_naive` is 0 or 1, hence in [0, 1]. -/
theorem shade_naive_alpha (S : scene_model) (params : pathtrace_params)
    (ray : ray3f) (rng : rngList) :
    0 ≤ ((shade_naive S params ray rng).1).w ∧
      ((shade_naive S params ray rng).1).w ≤ 1 := by
  obtain ⟨rad, h, rg, heq⟩ := shade_naive_loop_shape S params.bounces
    (rng.length + 1) 0 0 1 ray false rng
  rw [shade_naive, heq]
  cases h <;> norm_num [finish_vec]

/-- The alpha returned by `shade_volpathtrace` is 0 or 1, hence in [0, 1]. -/
theorem shade_volpathtrace_alpha (S : scene_model)
    (params : pathtrace_params) (ray : ray3f) (rng : rngList) :
    0 ≤ ((shade_volpathtrace S params ray rng).1).w ∧
      ((shade_volpathtrace S params ray rng).1).w ≤ 1 := by
  obtain ⟨rad, h, rg, heq⟩ := shade_volpathtrace_loop_shape S params.bounces
    (rng.length + 1) 0 0 1 ray false [] rng
  rw [shade_volpathtrace, heq]
  cases h <;> norm_num [finish_vec]

/-- `getD` over a mapped range. -/
theorem getD_range_map {α : Type} (f : ℕ → α) (n idx : ℕ) (d : α) :
    ((List.range n).map f).getD idx d = if idx < n then f idx else d := by
  by_cases h : idx < n
  · rw [List.getD_eq_getElem?_getD, List.getElem?_map, List.getElem?_range h]
    simp [h]
  · rw [List.getD_eq_getElem?_getD, List.getElem?_map]
    have hnone : (List.range n)[idx]? = none := by
      rw [List.getElem?_eq_none]
      simpa using Nat.le_of_not_lt h
    simp [hnone, h]

/-- The radiance a pixel accumulates in one sample has alpha in [0, 1]
whenever the shader's does (the non-finite clamp writes alpha 0). -/
theorem sample_pixel_alpha (camera : ℚ × ℚ → ℚ × ℚ → ray3f)
    (shader : ray3f → rngList → vec4f × rngList)
    (halpha : ∀ ray rng, 0 ≤ ((shader ray rng).1).w ∧
      ((shader ray rng).1).w ≤ 1)
    (sp W H idx : ℕ) (rng : rngList) :
    0 ≤ ((sample_pixel camera shader sp W H idx rng).1).w ∧
      ((sample_pixel camera shader sp W H idx rng).1).w ≤ 1 := by
  simp only [sample_pixel, isfinite4]
  simp only [Bool.true_eq_false, if_false]
  exact halpha _ _

/-- One `pathtrace_samples` call preserves the accumulator invariant
`0 ≤ image[idx].a ≤ samples`. -/
theorem pathtrace_samples_alpha_invariant
    (camera : ℚ × ℚ → ℚ × ℚ → ray3f)
    (shader : ray3f → rngList → vec4f × rngList)
    (params : pathtrace_params)
    (halpha : ∀ ray rng, 0 ≤ ((shader ray rng).1).w ∧
      ((shader ray rng).1).w ≤ 1)
    (state : pathtrace_state)
    (hinv : ∀ idx, 0 ≤ (state.image.getD idx 0).w ∧
      (state.image.getD idx 0).w ≤ (state.samples : ℚ)) :
    ∀ idx,
      0 ≤ ((pathtrace_samples camera shader state params).image.getD
        idx 0).w ∧
      ((pathtrace_samples camera shader state params).image.getD idx 0).w ≤
        ((pathtrace_samples camera shader state params).samples : ℚ) := by
  intro idx
  unfold pathtrace_samples
  split
  · exact hinv idx
  · simp only
    rw [getD_range_map]
    split
    · have h1 := hinv idx
      have h2 := sample_pixel_alpha camera shader halpha params.samples
        state.width state.height idx (state.rngs.getD idx [])
      rw [vec4f_add_w]
      push_cast
      constructor
      · linarith [h1.1, h2.1]
      · linarith [h1.2, h2.2]
    · constructor
      · norm_num [vec4f_zero_w]
      · rw [vec4f_zero_w]
        positivity

/-- The invariant propagates through any number of driver calls. -/
theorem iterate_samples_alpha_invariant
    (camera : ℚ × ℚ → ℚ × ℚ → ray3f)
    (shader : ray3f → rngList → vec4f × rngList)
    (params : pathtrace_params)
    (halpha : ∀ ray rng, 0 ≤ ((shader ray rng).1).w ∧
      ((shader ray rng).1).w ≤ 1)
    (n : ℕ) (state : pathtrace_state)
    (hinv : ∀ idx, 0 ≤ (state.image.getD idx 0).w ∧
      (state.image.getD idx 0).w ≤ (state.samples : ℚ)) :
    ∀ idx,
      0 ≤ ((iterate_samples camera shader params n state).image.getD
        idx 0).w ∧
      ((iterate_samples camera shader params n state).image.getD idx 0).w ≤
        ((iterate_samples camera shader params n state).samples : ℚ) := by
  induction n generalizing state with
  | zero => exact hinv
  | succ m ih =>
    rw [iterate_samples]
    exact ih _ (pathtrace_samples_alpha_invariant camera shader params
      halpha state hinv)

/-- As long as the target is not reached, each call adds exactly one
sample. -/
theorem iterate_samples_count (camera : ℚ × ℚ → ℚ × ℚ → ray3f)
    (shader : ray3f → rngList → vec4f × rngList)
    (params : pathtrace_params) (n : ℕ) (state : pathtrace_state)
    (h : state.samples + n ≤ params.samples) :
    (iterate_samples camera shader params n state).samples =
      state.samples + n := by
  induction n generalizing state with
  | zero => simp [iterate_samples]
  | succ m ih =>
    rw [iterate_samples]
    have hlt : state.samples < params.samples := by omega
    have hstep : (pathtrace_samples camera shader state params).samples =
        state.samples + 1 := by
      simp [pathtrace_samples, Nat.not_le.mpr hlt]
    rw [ih (pathtrace_samples camera shader state params) (by omega)]
    omega

/-- C7: the alpha returned per sample by each bounce-loop shader lies in
[0, 1] (it is the 0/1 hit flag), and consequently, for any shader with that
property, any pixel and any `n ≥ 1`, after `n` samples accumulated by
`pathtrace_samples` from a fresh state the accumulated `image[idx].a`
divided by the sample count lies in [0, 1]. -/
theorem C7_alpha_bounds :
    (∀ S params ray rng, 0 ≤ ((shade_pathtrace S params ray rng).1).w ∧
      ((shade_pathtrace S params ray rng).1).w ≤ 1) ∧
    (∀ S params ray rng, 0 ≤ ((shade_naive S params ray rng).1).w ∧
      ((shade_naive S params ray rng).1).w ≤ 1) ∧
    (∀ S params ray rng, 0 ≤ ((shade_volpathtrace S params ray rng).1).w ∧
      ((shade_volpathtrace S params ray rng).1).w ≤ 1) ∧
    (∀ (camera : ℚ × ℚ → ℚ × ℚ → ray3f)
      (shader : ray3f → rngList → vec4f × rngList)
      (params : pathtrace_params) (state : pathtrace_state) (n : ℕ),
      (∀ ray rng, 0 ≤ ((shader ray rng).1).w ∧
        ((shader ray rng).1).w ≤ 1) →
      (∀ idx, (state.image.getD idx 0).w = 0) →
      state.samples = 0 →
      1 ≤ n → n ≤ params.samples →
      ∀ idx,
        0 ≤ ((iterate_samples camera shader params n state).image.getD
            idx 0).w /
          ((iterate_samples camera shader params n state).samples : ℚ) ∧
        ((iterate_samples camera shader params n state).image.getD
            idx 0).w /
          ((iterate_samples camera shader params n state).samples : ℚ) ≤
            1) := by
  refine ⟨shade_pathtrace_alpha, shade_naive_alpha,
    shade_volpathtrace_alpha, ?_⟩
  intro camera shader params state n halpha hzero hs0 hn1 hnp idx
  have hinv0 : ∀ idx, 0 ≤ (state.image.getD idx 0).w ∧
      (state.image.getD idx 0).w ≤ (state.samples : ℚ) := by
    intro k
    rw [hzero k, hs0]
    norm_num
  have hinv := iterate_samples_alpha_invariant camera shader params halpha n
    state hinv0 idx
  have hcount : (iterate_samples camera shader params n state).samples = n :=
    by
    have := iterate_samples_count camera shader params n state (by omega)
    omega
  have hpos : (0 : ℚ) <
      ((iterate_samples camera shader params n state).samples : ℚ) := by
    rw [hcount]
    exact_mod_cast hn1
  constructor
  · exact div_nonneg hinv.1 (le_of_lt hpos)
  · rw [div_le_one hpos]
    exact hinv.2

/-- A fresh 1×1 state for the C7 witness. -/
def fresh_state : pathtrace_state :=
  { width := 1, height := 1, samples := 0, image := [0], hits := [0],
    rngs := [[]] }

/-- C7, witness: one pathtrace sample on a 1×1 fresh state against the
emissive scene keeps `image[0].a / samples` in [0, 1]. -/
theorem C7_alpha_bounds_witness :
    0 ≤ ((iterate_samples probe_camera
        (shade_pathtrace emissive_scene {}) { samples := 1 } 1
        fresh_state).image.getD 0 0).w /
      ((iterate_samples probe_camera (shade_pathtrace emissive_scene {})
        { samples := 1 } 1 fresh_state).samples : ℚ) ∧
    ((iterate_samples probe_camera (shade_pathtrace emissive_scene {})
        { samples := 1 } 1 fresh_state).image.getD 0 0).w /
      ((iterate_samples probe_camera (shade_pathtrace emissive_scene {})
        { samples := 1 } 1 fresh_state).samples : ℚ) ≤ 1 :=
  C7_alpha_bounds.2.2.2 probe_camera (shade_pathtrace emissive_scene {})
    { samples := 1 } fresh_state 1
    (fun ray rng => shade_pathtrace_alpha emissive_scene {} ray rng)
    (by intro idx; rcases idx with _ | k <;> rfl)
    rfl (le_refl 1) (by norm_num) 0

end yocto
